import Mathlib

set_option maxHeartbeats 1600000

/-!
Shallow embedding of the didact incremental renderer (src/didact.js) and
proofs about its reconciliation, commit-diff, scheduling and hooks logic.

Machine values are modelled by closed Lean datatypes; JS objects holding
properties are association lists with duplicate-free keys (JS object keys
are always duplicate-free); JS reference identity for functions and for
heap-allocated hook cells is modelled by explicit numeric ids.
-/

/-- JavaScript property values occurring in this program: strings, numbers,
booleans, and function references (event listeners).  Function identity is
modelled by a numeric reference id, since JS compares functions with
strict equality by reference. -/
inductive Val where
  | str (s : String)
  | num (n : Int)
  | bool (b : Bool)
  | fn (ref : Nat)
deriving DecidableEq

/-- A JS object used as a property bag: association list from key to value.
Keys of an actual JS object are duplicate-free and iterate in insertion
order, which list order models. -/
abbrev PropMap := List (String × Val)

/-- Property read `m[k]`: `none` models JS `undefined` on an absent key. -/
def getV (m : PropMap) (k : String) : Option Val :=
  (m.find? (fun p => p.1 == k)).map (·.2)

/-- The JS `k in m` test. -/
def hasKey (m : PropMap) (k : String) : Bool :=
  (getV m k).isSome

/-- The `type` field of an element or fiber: a host tag name, the
`TEXT_ELEMENT` marker, or a component function (identity by reference id,
since performUnitOfWork tests `fiber.type instanceof Function` and
reconciliation compares types with `==`, i.e. by reference for functions). -/
inductive NodeKind where
  | tag (s : String)
  | text
  | comp (ref : Nat)
deriving DecidableEq

/-- A primitive (non-object) JS value that may appear as a child of
`createElement`: `typeof child !== "object"` holds for these. -/
inductive Prim where
  | str (s : String)
  | num (n : Int)
  | bool (b : Bool)
deriving DecidableEq

/-- Injection of a primitive into the property-value type. -/
def primToVal : Prim → Val
  | .str s => .str s
  | .num n => .num n
  | .bool b => .bool b

/-- JS `String(v)` on a primitive. -/
def primToString : Prim → String
  | .str s => s
  | .num n => toString n
  | .bool b => if b then "true" else "false"

/-- A Didact element as built by `createElement` (src/didact.js lines 49-61):
a `type`, the non-children properties, and the `children` entry of `props`
(held as a separate field because its value is an array of elements). -/
inductive Elem where
  | mk (kind : NodeKind) (attrs : PropMap) (children : List Elem)

/-- The `type` field of an element. -/
def Elem.kindOf : Elem → NodeKind
  | .mk k _ _ => k

/-- The non-children properties of an element. -/
def Elem.attrsOf : Elem → PropMap
  | .mk _ a _ => a

/-- The `props.children` entry of an element. -/
def Elem.childrenOf : Elem → List Elem
  | .mk _ _ c => c

/-- `createTextElement` (src/didact.js lines 85-93): wraps a primitive in a
`TEXT_ELEMENT` whose props are `{nodeValue: value, children: []}`.  Note the
value is stored as given, not stringified. -/
def createTextElement (v : Prim) : Elem :=
  .mk .text [("nodeValue", primToVal v)] []

/-- A child argument to `createElement` after array flattening: either an
element (a JS object) or a primitive value. -/
inductive Kid0 where
  | node (e : Elem)
  | prim (p : Prim)

/-- A raw child argument to `createElement`: a single child or an array of
children (as produced e.g. by `animals.map(...)` in the demo app). -/
inductive Kid where
  | one (k : Kid0)
  | many (l : List Kid0)

/-- `children.flat()`: one level of array flattening. -/
def flat1 (l : List Kid) : List Kid0 :=
  (l.map (fun k => match k with
    | .one k0 => [k0]
    | .many l0 => l0)).flatten

/-- The promotion in `createElement`'s map (src/didact.js lines 54-58):
`typeof child !== "object" ? createTextElement(child) : child`. -/
def promoteChild : Kid0 → Elem
  | .node e => e
  | .prim p => createTextElement p

/-- `createElement` (src/didact.js lines 49-61): spreads the given props and
sets `children` to the flattened, promoted child list. -/
def createElement (k : NodeKind) (attrs : PropMap) (kids : List Kid) : Elem :=
  .mk k attrs ((flat1 kids).map promoteChild)

/-- Effect tags attached during reconciliation. -/
inductive Effect where
  | placement
  | update
  | deletion
deriving DecidableEq

/-- An old (previously committed) fiber as read by `reconcileChildren`:
its identity, `type`, `props`, `dom` handle (a numeric handle models the DOM
node reference) and current `effectTag`. -/
structure OldFiber where
  id : Nat
  type : NodeKind
  props : PropMap
  dom : Option Nat
  effectTag : Option Effect
deriving DecidableEq

/-- A new child description as read by `reconcileChildren` (only `type` and
`props` of the element are consulted there). -/
structure RElement where
  type : NodeKind
  props : PropMap
deriving DecidableEq

/-- A fiber produced by `reconcileChildren` for one child position. -/
structure NewFiber where
  type : NodeKind
  props : PropMap
  dom : Option Nat
  alternate : Option OldFiber
  effectTag : Effect
deriving DecidableEq

/-- The `sameType` test of `reconcileChildren` (src/didact.js lines 377-381):
`oldFiber && element && element.type == oldFiber.type`. -/
def sameTypeB (old? : Option OldFiber) (el? : Option RElement) : Bool :=
  match old?, el? with
  | some o, some e => decide (e.type = o.type)
  | _, _ => false

/-- The `newFiber` produced by one iteration of `reconcileChildren`'s loop
(src/didact.js lines 383-409): an UPDATE fiber reusing the old dom when types
match, a PLACEMENT fiber with no dom when a new element exists with a
different type, `null` when the element index is past the end. -/
def stepNew (old? : Option OldFiber) (el? : Option RElement) : Option NewFiber :=
  match old?, el? with
  | some o, some e =>
    if e.type = o.type then
      some ⟨o.type, e.props, o.dom, some o, .update⟩
    else
      some ⟨e.type, e.props, none, none, .placement⟩
  | none, some e => some ⟨e.type, e.props, none, none, .placement⟩
  | _, none => none

/-- The deletion produced by one iteration of `reconcileChildren`'s loop
(src/didact.js lines 410-414): the old fiber tagged DELETION and pushed onto
the pass's `deletions` list when an old fiber exists and types differ. -/
def stepDel (old? : Option OldFiber) (el? : Option RElement) : List OldFiber :=
  match old? with
  | some o =>
    if sameTypeB (some o) el? then [] else [{ o with effectTag := some .deletion }]
  | none => []

/-- `reconcileChildren`'s loop (src/didact.js lines 373-429), iterating the
new element list and the old sibling chain in lockstep while either remains:
per position it yields the produced `newFiber` (possibly null) and
accumulates deletions in push order. -/
def reconcile : List RElement → List OldFiber → List (Option NewFiber) × List OldFiber
  | [], [] => ([], [])
  | e :: es, [] =>
    let r := reconcile es []
    (stepNew none (some e) :: r.1, stepDel none (some e) ++ r.2)
  | [], o :: os =>
    let r := reconcile [] os
    (stepNew (some o) none :: r.1, stepDel (some o) none ++ r.2)
  | e :: es, o :: os =>
    let r := reconcile es os
    (stepNew (some o) (some e) :: r.1, stepDel (some o) (some e) ++ r.2)

/-- `isEvent` (src/didact.js lines 259-261): `key.startsWith("on")`, stated
over the key's character list. -/
def isEvent (k : String) : Bool :=
  match k.data with
  | 'o' :: 'n' :: _ => true
  | _ => false

/-- `isProperty` (src/didact.js lines 263-265):
`key !== "children" && !isEvent(key)`. -/
def isProperty (k : String) : Bool :=
  (decide (k ≠ "children")) && !(isEvent k)

/-- `isNew` (src/didact.js lines 251-253): `prev[key] !== next[key]`, with
`none` standing for an `undefined` read of an absent key. -/
def isNewB (prev next : PropMap) (k : String) : Bool :=
  decide (getV prev k ≠ getV next k)

/-- `isGone` (src/didact.js lines 255-257): `!(key in next)`. -/
def isGoneB (next : PropMap) (k : String) : Bool :=
  !(hasKey next k)

/-- The event name derived from a listener property key
(src/didact.js lines 233-235): `name.toLowerCase().substring(2)`, stated
over the key's character list. -/
def evType (k : String) : String :=
  ⟨((k.data).map Char.toLower).drop 2⟩

/-- One render-target call issued by `updateDom`, without the target handle:
a property assignment `dom[name] = v` (clearing a removed property is the
assignment of the empty string), a listener unregistration, or a listener
registration. -/
inductive PropOp where
  | set (name : String) (v : Val)
  | removeL (ev : String) (listener : Val)
  | addL (ev : String) (listener : Val)
deriving DecidableEq

/-- Whether an operation registers a listener. -/
def isAddL : PropOp → Bool
  | .addL _ _ => true
  | _ => false

/-- Whether an operation unregisters a listener. -/
def isRemoveL : PropOp → Bool
  | .removeL _ _ => true
  | _ => false

/-- `updateDom` (src/didact.js lines 209-249) as the ordered list of
render-target calls it issues: first clear removed plain properties to `""`,
then set new or changed plain properties, then unregister removed or changed
listeners, then register new or changed listeners.  Iteration over
`Object.keys` with indexing is rendered as iteration over the key-value
pairs, which agrees because JS object keys are duplicate-free. -/
def updateDomOps (prev next : PropMap) : List PropOp :=
  (prev.filter (fun p => isProperty p.1 && isGoneB next p.1)).map
      (fun p => PropOp.set p.1 (Val.str ""))
  ++ (next.filter (fun p => isProperty p.1 && isNewB prev next p.1)).map
      (fun p => PropOp.set p.1 p.2)
  ++ (prev.filter (fun p => isEvent p.1 && (!(hasKey next p.1) || isNewB prev next p.1))).map
      (fun p => PropOp.removeL (evType p.1) p.2)
  ++ (next.filter (fun p => isEvent p.1 && isNewB prev next p.1)).map
      (fun p => PropOp.addL (evType p.1) p.2)

/-- A queued state update as passed to the updater returned by `useState`:
either a plain replacement value or a function from old value to new value
(the distinction the spec draws for the updater's argument). -/
inductive StateAction (S : Type) where
  | value (v : S)
  | fn (f : S → S)

/-- The queue application step of `useState` (src/didact.js line 444):
`hook.state = action(hook.state)`.  The action is called unconditionally, so
a non-function action is a JS `TypeError` (modelled as `none`); only a
function action produces a new state. -/
def callAction : StateAction S → S → Option S
  | .value _, _ => none
  | .fn f, s => some (f s)

/-- Sequential application of the pending queue (src/didact.js lines 442-445),
failing if any entry is not callable. -/
def runQueue (q : List (StateAction S)) (s0 : S) : Option S :=
  q.foldlM (fun s a => callAction a s) s0

/-- A hook cell (src/didact.js lines 437-440): `{state, queue}`, extended with
an allocation id modelling JS object identity (the object literal at line 437
allocates a fresh object on every call). -/
structure HookS (S : Type) where
  hid : Nat
  state : S
  queue : List (StateAction S)

/-- The body of `useState` (src/didact.js lines 432-445, 460-462) for one
call position: read the old hook (if any), start from its state (else the
initializer), apply its pending queue in order, and allocate a fresh cell
with the resolved state and an empty queue.  `fresh` is the identity of the
newly allocated cell; the result is `none` when applying the queue throws. -/
def useStateCore (oldHook? : Option (HookS S)) (initial : S) (fresh : Nat) :
    Option (HookS S) :=
  let s0 := match oldHook? with
    | some h => h.state
    | none => initial
  let actions := match oldHook? with
    | some h => h.queue
    | none => []
  (runQueue actions s0).map (fun s => ⟨fresh, s, []⟩)

/-- The queue append performed by the updater (src/didact.js line 448):
`hook.queue.push(action)` on the cell captured by the updater's closure. -/
def enqueue (h : HookS S) (a : StateAction S) : HookS S :=
  { h with queue := h.queue ++ [a] }

/-- The increment action `c => c + 1` used by the demo app. -/
def incAction : StateAction Nat := .fn (· + 1)

/-- Pass 1 of the four-pass state-persistence scenario: first render of a
component calling `useState(0)` once; fresh cell id 1. -/
def statePass1 : Option (HookS Nat) := useStateCore none 0 1

/-- Pass 2: the updater was invoked once with `+1` on pass 1's cell, then the
next pass reads that cell as the old hook; fresh cell id 2. -/
def statePass2 : Option (HookS Nat) :=
  statePass1.bind (fun h => useStateCore (some (enqueue h incAction)) 0 2)

/-- Pass 3 of the same scenario; fresh cell id 3. -/
def statePass3 : Option (HookS Nat) :=
  statePass2.bind (fun h => useStateCore (some (enqueue h incAction)) 0 3)

/-- Pass 4 of the same scenario; fresh cell id 4. -/
def statePass4 : Option (HookS Nat) :=
  statePass3.bind (fun h => useStateCore (some (enqueue h incAction)) 0 4)

/-- A root-level fiber as manipulated by the global scheduler state: its
`dom` handle, `props`, and `alternate` link to the previous committed root
(src/didact.js lines 143-149 and 451-455 build exactly these three fields). -/
inductive GFiber where
  | mk (dom : Option Nat) (props : PropMap) (alternate : Option GFiber)

/-- The `dom` field of a scheduler-level fiber. -/
def GFiber.domOf : GFiber → Option Nat
  | .mk d _ _ => d

/-- The `props` field of a scheduler-level fiber. -/
def GFiber.propsOf : GFiber → PropMap
  | .mk _ p _ => p

/-- The `alternate` field of a scheduler-level fiber. -/
def GFiber.altOf : GFiber → Option GFiber
  | .mk _ _ a => a

/-- The module-level mutable scheduler state (src/didact.js lines 96-110):
`nextUnitOfWork`, `workInProgress`, `deletions` (null before the first
render), and `current` (the committed root, null before the first commit). -/
structure Globals where
  nextUnitOfWork : Option GFiber
  workInProgress : Option GFiber
  deletions : Option (List OldFiber)
  current : Option GFiber

/-- The work-in-progress root object built by `setState`
(src/didact.js lines 451-455): `{dom: current.dom, props: current.props,
alternate: current}`. -/
def cloneRootFrom (c : GFiber) : GFiber :=
  .mk c.domOf c.propsOf (some c)

/-- The effect of the updater `setState` (src/didact.js lines 447-458) on the
global scheduler state: it dereferences `current` unconditionally — a
`TypeError` (modelled as `none`) when no pass has been committed — and
otherwise unconditionally overwrites `workInProgress` and `nextUnitOfWork`
with a fresh root cloned from the committed root and resets `deletions` to
the empty list. -/
def setStateGlobals (g : Globals) : Option Globals :=
  match g.current with
  | none => none
  | some c =>
    some { g with
      workInProgress := some (cloneRootFrom c),
      nextUnitOfWork := some (cloneRootFrom c),
      deletions := some [] }

/-- One call against the external render target, with explicit handles
(numeric ids standing for DOM node references): node creation, a property
assignment, listener registration, and child attachment or detachment. -/
inductive DomOp where
  | createElement (tag : String) (h : Nat)
  | createTextNode (h : Nat)
  | setProp (h : Nat) (name : String) (v : Val)
  | addListener (h : Nat) (ev : String) (listener : Val)
  | removeListener (h : Nat) (ev : String) (listener : Val)
  | appendChild (parent : Nat) (child : Nat)
  | removeChild (parent : Nat) (child : Nat)
deriving DecidableEq

/-- Attach a handle-less `updateDom` operation to a concrete target handle. -/
def opAt (h : Nat) : PropOp → DomOp
  | .set k v => .setProp h k v
  | .addL ev f => .addListener h ev f
  | .removeL ev f => .removeListener h ev f

/-- The handle an operation acts on (the parent handle for attach/detach). -/
def opHandle : DomOp → Nat
  | .createElement _ h => h
  | .createTextNode h => h
  | .setProp h _ _ => h
  | .addListener h _ _ => h
  | .removeListener h _ _ => h
  | .appendChild p _ => p
  | .removeChild p _ => p

/-- Whether an operation attaches or detaches a child in the target tree. -/
def isAttachDetach : DomOp → Bool
  | .appendChild _ _ => true
  | .removeChild _ _ => true
  | _ => false

/-- `createDom` (src/didact.js lines 63-71) as the render-target calls it
issues for a fiber of the given kind and props at fresh handle `h`: create a
text node or an element, then `updateDom(dom, {}, fiber.props)`.  The
component case is unreachable because `performUnitOfWork` routes function
components away from `updateHostComponent`. -/
def createDomOps (k : NodeKind) (attrs : PropMap) (h : Nat) : List DomOp :=
  (match k with
    | .text => [DomOp.createTextNode h]
    | .tag s => [DomOp.createElement s h]
    | .comp _ => [DomOp.createElement "" h])
  ++ (updateDomOps [] attrs).map (opAt h)

/-- A fiber record of the in-progress tree as used by the work loop
(src/didact.js Fiber typedef): `type`, the non-children props, the
`props.children` element list, the `dom` handle, and the `child`, `sibling`
and `return` links (fiber identity modelled by store ids).  This store-level
model covers an initial mount pass, where every fiber's `alternate` is
absent and `reconcileChildren` takes the PLACEMENT branch (src/didact.js
lines 394-409) for every child. -/
structure SFiber where
  kind : NodeKind
  attrs : PropMap
  childElems : List Elem
  dom : Option Nat
  child : Option Nat
  sibling : Option Nat
  ret : Option Nat
  effectTag : Option Effect

/-- The heap of fibers for one pass, with counters supplying fresh fiber ids
and fresh render-target handles. -/
structure Store where
  fibers : List (Nat × SFiber)
  nextId : Nat
  nextDom : Nat

/-- Look up a fiber by id. -/
def findF (st : Store) (i : Nat) : Option SFiber :=
  (st.fibers.find? (fun p => p.1 == i)).map (·.2)

/-- Replace the fiber stored at id `i`. -/
def setF (st : Store) (i : Nat) (f : SFiber) : Store :=
  { st with fibers := st.fibers.map (fun p => if p.1 == i then (i, f) else p) }

/-- Read `fiber.child` through the store. -/
def childOf (st : Store) (i : Nat) : Option Nat :=
  (findF st i).bind (·.child)

/-- Read `fiber.sibling` through the store. -/
def siblingOf (st : Store) (i : Nat) : Option Nat :=
  (findF st i).bind (·.sibling)

/-- Read `fiber.return` through the store. -/
def retOf (st : Store) (i : Nat) : Option Nat :=
  (findF st i).bind (·.ret)

/-- The `while (nextFiber)` ancestor walk of `performUnitOfWork`
(src/didact.js lines 324-330): return the current fiber's sibling if it has
one, else continue from its `return` link.  The JS loop is unbounded; `fuel`
dominates the length of the `return` chain actually walked. -/
def upWhile (st : Store) : Option Nat → Nat → Option Nat
  | none, _ => none
  | some _, 0 => none
  | some i, fuel + 1 =>
    match siblingOf st i with
    | some s => some s
    | none => upWhile st (retOf st i) fuel

/-- The next-unit computation at the end of `performUnitOfWork`
(src/didact.js lines 321-331): the fiber's first child if it has one, else
the ancestor walk starting at the fiber itself. -/
def performNextUnit (st : Store) (i : Nat) (fuel : Nat) : Option Nat :=
  match childOf st i with
  | some c => some c
  | none => upWhile st (some i) fuel

/-- The finite `return`-link chain from a fiber up to the root: `l` lists the
fiber itself followed by its ancestors, ending at a fiber whose `return`
link is absent. -/
inductive RetChain (st : Store) : Nat → List Nat → Prop where
  | last {i : Nat} : retOf st i = none → RetChain st i [i]
  | cons {i p : Nat} {l : List Nat} :
      retOf st i = some p → RetChain st p l → RetChain st i (i :: l)

/-- The PLACEMENT arm of `reconcileChildren` applied to a whole child list on
an initial mount (src/didact.js lines 394-409, 416-428): each child element
becomes a fresh fiber with no `dom`, effect tag PLACEMENT, `return` set to
the parent, and `sibling` chaining to the next child. -/
def mkChildFibers (parent : Nat) (startId : Nat) : List Elem → List (Nat × SFiber)
  | [] => []
  | e :: rest =>
    (startId,
      { kind := e.kindOf, attrs := e.attrsOf, childElems := e.childrenOf,
        dom := none, child := none,
        sibling := if rest.isEmpty then none else some (startId + 1),
        ret := some parent, effectTag := some Effect.placement }) ::
    mkChildFibers parent (startId + 1) rest

/-- Store `reconcileChildren wipFiber elements` for fiber `i` with record
`f` on a mount pass: allocate the child fibers and set `wipFiber.child` to
the first of them (absent when the element list is empty, matching
`wipFiber.child = newFiber` never running at index 0). -/
def placeKids (st : Store) (i : Nat) (f : SFiber) : Store :=
  let kids := mkChildFibers i st.nextId f.childElems
  let f2 := { f with child := (kids.head?).map (·.1) }
  let stA := setF st i f2
  { stA with fibers := stA.fibers ++ kids, nextId := st.nextId + f.childElems.length }

/-- One unit of work (src/didact.js lines 267-273, 337-350) on a mount pass,
returning the updated store and the render-target calls issued.
`updateFunctionComponent` issues no render-target calls (lines 337-343); its
child reconciliation is outside this store-level model.  For a host fiber,
`updateHostComponent` (lines 345-350) first creates and pre-populates a dom
handle if the fiber has none — these are the only calls issued during the
render phase — then reconciles `fiber.props.children`. -/
def stepUnit (st : Store) (i : Nat) : Store × List DomOp :=
  match findF st i with
  | none => (st, [])
  | some f =>
    match f.kind with
    | NodeKind.comp _ => (st, [])
    | _ =>
      if f.dom.isSome then
        (placeKids st i f, [])
      else
        (placeKids { st with nextDom := st.nextDom + 1 } i { f with dom := some st.nextDom },
         createDomOps f.kind f.attrs st.nextDom)

/-- The result of driving the work loop: the final store, the concatenated
render-target calls issued so far, and the `nextUnitOfWork` pointer (absent
exactly when the pass's reconciliation is complete). -/
structure RunResult where
  store : Store
  ops : List DomOp
  next : Option Nat

/-- The render phase of `workLoop` (src/didact.js lines 112-117): perform
`fuel` units of work starting from the current `nextUnitOfWork`, threading
the store and concatenating calls.  Stopping with `next ≠ none` is a
scheduling-slice boundary in the middle of reconciliation; commit only
happens once `next = none`. -/
def runPass (st : Store) (cur : Option Nat) : Nat → RunResult
  | 0 => ⟨st, [], cur⟩
  | fuel + 1 =>
    match cur with
    | none => ⟨st, [], none⟩
    | some i =>
      let p := stepUnit st i
      let nxt := performNextUnit p.1 i (p.1.fibers.length + 1)
      let r := runPass p.1 nxt fuel
      ⟨r.store, p.2 ++ r.ops, r.next⟩

/-- A text element child used in the mount-pass scenario. -/
def c5Text : Elem := .mk .text [("nodeValue", Val.str "hi")] []

/-- A host element with one attribute and one child, for the mount-pass
scenario. -/
def c5Div : Elem := .mk (.tag "div") [("title", Val.str "x")] [c5Text]

/-- The root fiber built by `createRoot(...).render` (src/didact.js lines
142-152): it owns the container handle and has the rendered element as its
single child description. -/
def c5Root : SFiber :=
  { kind := .tag "ROOT", attrs := [], childElems := [c5Div], dom := some 100,
    child := none, sibling := none, ret := none, effectTag := none }

/-- Initial store of the mount-pass scenario: only the root fiber exists. -/
def c5Store : Store := ⟨[(0, c5Root)], 1, 0⟩

/-- A plain host fiber for the next-unit example tree; links filled per id. -/
def c8Fiber (tag : String) (child sibling ret : Option Nat) : SFiber :=
  { kind := .tag tag, attrs := [], childElems := [], dom := none,
    child := child, sibling := sibling, ret := ret, effectTag := none }

/-- The example tree from the `performUnitOfWork` comment (src/didact.js
lines 280-319): root(0) > div(1) > [h1(2) > [p(4), a(5)], h2(3)]. -/
def c8Store : Store :=
  ⟨[(0, c8Fiber "ROOT" (some 1) none none),
    (1, c8Fiber "div" (some 2) none (some 0)),
    (2, c8Fiber "h1" (some 4) (some 3) (some 1)),
    (3, c8Fiber "h2" none none (some 1)),
    (4, c8Fiber "p" none (some 5) (some 2)),
    (5, c8Fiber "a" none none (some 2))], 6, 0⟩

/-- A committed root, as left by a first commit. -/
def c3Committed : GFiber := .mk (some 0) [("id", Val.str "root")] none

/-- A pending unit of an in-progress pass (not derived from the committed
root: its `alternate` is absent). -/
def c3Pending : GFiber := .mk (some 7) [] none

/-- An entry already on the in-progress pass's removal list. -/
def c3DelEntry : OldFiber := ⟨9, .tag "p", [], some 8, some .deletion⟩

/-- Global scheduler state in the middle of a pass: a pending next unit and
a nonempty removal list, with a committed root present. -/
def c3Globals : Globals :=
  { nextUnitOfWork := some c3Pending, workInProgress := some c3Pending,
    deletions := some [c3DelEntry], current := some c3Committed }

/-- Global scheduler state before any commit: `current` is still null. -/
def c9Empty : Globals := ⟨none, none, none, none⟩

/-- Claim C6, counterexample: for the primitive child value 5, the promoted
child's sole non-children property is the raw number 5, not the stringified
value "5" the claim asserts (`createTextElement` stores `nodeValue: value`
unconverted, src/didact.js line 89). -/
theorem text_promotion_stringify_cex :
    ((createElement (.tag "h1") [] [Kid.one (.prim (.num 5))]).childrenOf.map Elem.attrsOf)
      = [[("nodeValue", Val.num 5)]] ∧
    [("nodeValue", Val.num 5)] ≠ [("nodeValue", Val.str (primToString (.num 5)))] := by
  constructor
  · rfl
  · decide

/-- Claim C6, amended: every primitive (non-object) child value v passed to
the element factory is promoted to a node whose marker kind is the text-node
kind, whose sole non-children property is the value v itself (stringification
happens only when the render target later coerces the assigned property), and
whose children sequence is empty. -/
theorem text_promotion_raw_value (k : NodeKind) (attrs : PropMap) (kids : List Kid)
    (p : Prim) (h : Kid0.prim p ∈ flat1 kids) :
    Elem.mk .text [("nodeValue", primToVal p)] [] ∈ (createElement k attrs kids).childrenOf := by
  show Elem.mk .text [("nodeValue", primToVal p)] [] ∈ (flat1 kids).map promoteChild
  exact List.mem_map.mpr ⟨_, h, rfl⟩

/-- Witness for the amended claim C6 at the concrete child value "hi". -/
theorem text_promotion_raw_value_witness :
    Elem.mk .text [("nodeValue", primToVal (.str "hi"))] [] ∈
      (createElement (.tag "h1") [] [Kid.one (.prim (.str "hi"))]).childrenOf :=
  text_promotion_raw_value _ _ _ _ (by simp [flat1])

/-- Claim C1: for a parent whose old committed child chain has kinds
[A, B, C] and whose new child descriptions have kinds [A, X, C] with X not
equal to B, reconciliation yields: at position 0 an Update fiber reusing the
old unit's dom handle (with previousVersion the old A unit), at position 1
the old B unit tagged DELETION and appended to the removal list plus a fresh
PLACEMENT fiber with no dom handle and no previousVersion for X, and at
position 2 an Update fiber paired with its positional counterpart old C —
positions after the mismatch are compared positionally, never re-aligned by
kind. -/
theorem reconcile_single_mismatch
    (a b c x : NodeKind) (pa px pc : PropMap) (oA oB oC : OldFiber)
    (ha : oA.type = a) (hb : oB.type = b) (hc : oC.type = c) (hx : x ≠ b) :
    reconcile [⟨a, pa⟩, ⟨x, px⟩, ⟨c, pc⟩] [oA, oB, oC] =
      ([some ⟨a, pa, oA.dom, some oA, .update⟩,
        some ⟨x, px, none, none, .placement⟩,
        some ⟨c, pc, oC.dom, some oC, .update⟩],
       [{ oB with effectTag := some .deletion }]) := by
  subst ha hb hc
  simp [reconcile, stepNew, stepDel, sameTypeB, hx]

/-- Witness for claim C1 at concrete kinds a, b, c, x and concrete fibers. -/
theorem reconcile_single_mismatch_witness :
    reconcile
      [⟨.tag "a", []⟩, ⟨.tag "x", []⟩, ⟨.tag "c", []⟩]
      [⟨1, .tag "a", [], some 11, none⟩, ⟨2, .tag "b", [], some 12, none⟩,
       ⟨3, .tag "c", [], some 13, none⟩] =
      ([some ⟨.tag "a", [], some 11, some ⟨1, .tag "a", [], some 11, none⟩, .update⟩,
        some ⟨.tag "x", [], none, none, .placement⟩,
        some ⟨.tag "c", [], some 13, some ⟨3, .tag "c", [], some 13, none⟩, .update⟩],
       [⟨2, .tag "b", [], some 12, some .deletion⟩]) :=
  reconcile_single_mismatch _ _ _ _ _ _ _ _ _ _ rfl rfl rfl (by decide)

/-- Claim C2, counterexample: enqueuing the non-function replacement value 5
on a cell with old value 0 does not make the next pass resolve the cell to 5;
the queue application calls the queued entry as a function
(src/didact.js line 444), which fails for a non-function value. -/
theorem useState_value_action_cex :
    ((useStateCore (some ⟨0, (0 : Nat), [StateAction.value 5]⟩) 0 1).map HookS.state) ≠ some 5 := by
  decide

/-- Claim C2, amended: the updater handle accepts only a function from old
value to new value — after enqueuing a function f, the state call of the next
pass resolves the cell's value to f applied to the old value; enqueuing a
non-function replacement value v makes the next pass's state call fail (the
code applies every queued entry as a function) rather than resolve to v. -/
theorem useState_updater_functions_only {S : Type} (s0 init : S) (i j : Nat)
    (f : S → S) (v : S) :
    ((useStateCore (some ⟨i, s0, [StateAction.fn f]⟩) init j).map HookS.state = some (f s0)) ∧
    (useStateCore (some ⟨i, s0, [StateAction.value v]⟩) init j = none) :=
  ⟨rfl, rfl⟩

/-- Claim C4, counterexample: in the four-pass +1 scenario the State Cell is
not identity-reused across passes — each pass allocates a fresh cell (the
object literal at src/didact.js line 437), so the pass-2 cell's allocation
identity differs from the pass-1 cell's. -/
theorem state_cell_identity_cex :
    statePass1.map HookS.hid = some 1 ∧ statePass2.map HookS.hid = some 2 ∧
    statePass2.map HookS.hid ≠ statePass1.map HookS.hid := by
  decide

/-- Claim C4, amended: for a component calling the state primitive once with
initializer 0 whose updater is invoked once before each of three successive
passes with the function +1, the resolved values of the four successive
passes are 0, 1, 2, 3; the old cell's resolved value and pending queue are
carried into a freshly allocated cell each pass (distinct identity), not
into the same cell object. -/
theorem state_values_fresh_cells :
    statePass1.map HookS.state = some 0 ∧ statePass2.map HookS.state = some 1 ∧
    statePass3.map HookS.state = some 2 ∧ statePass4.map HookS.state = some 3 ∧
    statePass1.map HookS.hid = some 1 ∧ statePass2.map HookS.hid = some 2 ∧
    statePass3.map HookS.hid = some 3 ∧ statePass4.map HookS.hid = some 4 := by
  decide

/-- Claim C3, counterexample: invoking the updater while a pass is in
progress (pending next unit, nonempty removal list, committed root present)
does not leave the in-progress pass unaffected — `setState` unconditionally
clears the removal list and redirects the next-unit pointer to a fresh root
cloned from the committed root (src/didact.js lines 451-457). -/
theorem setState_midpass_cex :
    (setStateGlobals c3Globals).map Globals.deletions = some (some ([] : List OldFiber)) ∧
    c3Globals.deletions = some [c3DelEntry] ∧
    some [c3DelEntry] ≠ some ([] : List OldFiber) ∧
    (setStateGlobals c3Globals).map (fun g => (g.nextUnitOfWork.bind GFiber.altOf).isSome) = some true ∧
    (c3Globals.nextUnitOfWork.bind GFiber.altOf).isSome = false :=
  ⟨rfl, rfl, by decide, rfl, rfl⟩

/-- Claim C3, amended: invoking the updater handle while a pass is in
progress discards and restarts the in-progress pass — whenever a committed
root exists, `setState` replaces the work-in-progress root and the next-unit
pointer with a fresh root cloned from the committed root (alternate set to
the committed root) and resets the removal list to empty; the queued update
is then observed by this restarted pass. -/
theorem setState_restarts_pass (g : Globals) (c : GFiber) (h : g.current = some c) :
    setStateGlobals g =
      some { g with
        workInProgress := some (GFiber.mk c.domOf c.propsOf (some c)),
        nextUnitOfWork := some (GFiber.mk c.domOf c.propsOf (some c)),
        deletions := some [] } := by
  simp [setStateGlobals, h, cloneRootFrom]

/-- Witness for the amended claim C3 at the concrete mid-pass globals. -/
theorem setState_restarts_pass_witness :
    setStateGlobals c3Globals =
      some { c3Globals with
        workInProgress := some (GFiber.mk (some 0) [("id", Val.str "root")] (some c3Committed)),
        nextUnitOfWork := some (GFiber.mk (some 0) [("id", Val.str "root")] (some c3Committed)),
        deletions := some [] } :=
  setState_restarts_pass c3Globals c3Committed rfl

/-- Claim C9: invoking the updater handle before any pass has been committed
(the committed current root still absent) dereferences the absent committed
root and the call fails rather than scheduling a pass; when some pass has
been committed, the dereference succeeds and a new pass is scheduled. -/
theorem setState_requires_commit (g : Globals) :
    (g.current = none → setStateGlobals g = none) ∧
    (∀ c : GFiber, g.current = some c → (setStateGlobals g).isSome = true) := by
  constructor
  · intro h
    simp [setStateGlobals, h]
  · intro c h
    simp [setStateGlobals, h]

/-- Witness for claim C9: the updater fails on the pre-commit globals and
succeeds on globals with a committed root. -/
theorem setState_requires_commit_witness :
    setStateGlobals c9Empty = none ∧ (setStateGlobals c3Globals).isSome = true :=
  ⟨(setState_requires_commit c9Empty).1 rfl,
   (setState_requires_commit c3Globals).2 c3Committed rfl⟩

/-- Helper for claim C8: along a finite return-link chain, the ancestor walk
of `performUnitOfWork` returns the sibling of the first chain member that
has one. -/
theorem upWhile_eq_findSome (st : Store) {i : Nat} {l : List Nat}
    (h : RetChain st i l) :
    upWhile st (some i) l.length = l.findSome? (siblingOf st) := by
  induction h with
  | last hret =>
    simp only [List.length_cons, List.length_nil, upWhile, List.findSome?]
    cases hs : siblingOf st _ with
    | some s => simp
    | none => simp [hret, upWhile]
  | cons hret _ ih =>
    simp only [List.length_cons, upWhile, List.findSome?]
    cases hs : siblingOf st _ with
    | some s => simp
    | none => simp [hret, ih]

/-- Claim C8: for every Work Unit processed by one step of the work loop,
the next unit computed is the unit's first child if one exists; otherwise
the next sibling of the nearest ancestor (including the unit itself, walking
up return links) that has one; otherwise none, meaning the pass is
complete. -/
theorem next_unit_depth_first (st : Store) (i : Nat) (l : List Nat)
    (h : RetChain st i l) :
    performNextUnit st i l.length =
      match childOf st i with
      | some c => some c
      | none => l.findSome? (siblingOf st) := by
  cases hc : childOf st i with
  | some c => simp [performNextUnit, hc]
  | none => simp [performNextUnit, hc, upWhile_eq_findSome st h]

/-- Witness for claim C8 on the example tree of the source comment: after
the a fiber, the next unit is the h2 fiber (the parent's sibling). -/
theorem next_unit_depth_first_witness :
    performNextUnit c8Store 5 4 = some 3 := by
  have h : RetChain c8Store 5 [5, 2, 1, 0] :=
    .cons rfl (.cons rfl (.cons rfl (.last rfl)))
  exact (next_unit_depth_first c8Store 5 [5, 2, 1, 0] h).trans (by decide)

/-- Helper: association-list lookup finds the value of a bound key when keys
are duplicate-free. -/
theorem getV_of_mem (m : PropMap) (k : String) (v : Val)
    (hm : (m.map Prod.fst).Nodup) (h : (k, v) ∈ m) : getV m k = some v := by
  induction m with
  | nil => cases h
  | cons p rest ih =>
    rcases List.mem_cons.mp h with h1 | h2
    · subst h1
      simp [getV, List.find?]
    · have hm' : (p.1 :: rest.map Prod.fst).Nodup := by
        simpa only [List.map_cons] using hm
      have hk : k ∈ rest.map Prod.fst := List.mem_map.mpr ⟨(k, v), h2, rfl⟩
      have hne : p.1 ≠ k := by
        intro he
        exact (List.nodup_cons.mp hm').1 (he ▸ hk)
      have hrest := ih (List.nodup_cons.mp hm').2 h2
      simp only [getV, List.find?] at hrest ⊢
      rw [show (p.1 == k) = false from beq_eq_false_iff_ne.mpr hne]
      exact hrest

/-- Helper: a bound key is present. -/
theorem hasKey_of_mem (m : PropMap) (k : String) (v : Val)
    (h : (k, v) ∈ m) : hasKey m k = true := by
  induction m with
  | nil => cases h
  | cons p rest ih =>
    rcases List.mem_cons.mp h with h1 | h2
    · subst h1
      simp [hasKey, getV, List.find?]
    · by_cases he : p.1 == k
      · simp [hasKey, getV, List.find?, he]
      · simp only [hasKey, getV, List.find?] at ih ⊢
        rw [show (p.1 == k) = false from by simpa using he]
        exact ih h2

/-- Claim C7: for the property diff applied at an Update commit with
previous properties P and next properties N — every non-children,
non-listener key present in P and absent from N is cleared to the empty
value; every non-children, non-listener key in N absent from P or with a
changed value is set to N's value; every listener-shaped key removed or
changed is unregistered, every new or changed listener is registered, and
all unregistrations precede all registrations. -/
theorem updateDom_diff_rules (prev next : PropMap)
    (hp : (prev.map Prod.fst).Nodup) (hn : (next.map Prod.fst).Nodup) :
    (∀ k v, (k, v) ∈ prev → isProperty k = true → hasKey next k = false →
        PropOp.set k (Val.str "") ∈ updateDomOps prev next) ∧
    (∀ k v, (k, v) ∈ next → isProperty k = true → getV prev k ≠ some v →
        PropOp.set k v ∈ updateDomOps prev next) ∧
    (∀ k v, (k, v) ∈ prev → isEvent k = true →
        (hasKey next k = false ∨ getV next k ≠ some v) →
        PropOp.removeL (evType k) v ∈ updateDomOps prev next) ∧
    (∀ k v, (k, v) ∈ next → isEvent k = true → getV prev k ≠ some v →
        PropOp.addL (evType k) v ∈ updateDomOps prev next) ∧
    (∃ l1 l2, updateDomOps prev next = l1 ++ l2 ∧
        (∀ op ∈ l1, isAddL op = false) ∧ (∀ op ∈ l2, isRemoveL op = false)) := by
  refine ⟨?_, ?_, ?_, ?_, ?_⟩
  · intro k v hmem hprop hgone
    unfold updateDomOps
    refine List.mem_append.mpr (Or.inl (List.mem_append.mpr (Or.inl
      (List.mem_append.mpr (Or.inl ?_)))))
    refine List.mem_map.mpr ⟨(k, v), List.mem_filter.mpr ⟨hmem, ?_⟩, rfl⟩
    simp [hprop, isGoneB, hgone]
  · intro k v hmem hprop hnew
    have hnx : getV next k = some v := getV_of_mem next k v hn hmem
    unfold updateDomOps
    refine List.mem_append.mpr (Or.inl (List.mem_append.mpr (Or.inl
      (List.mem_append.mpr (Or.inr ?_)))))
    refine List.mem_map.mpr ⟨(k, v), List.mem_filter.mpr ⟨hmem, ?_⟩, rfl⟩
    simp only [Bool.and_eq_true, hprop, isNewB, decide_eq_true_eq, hnx, true_and]
    exact hnew
  · intro k v hmem hev hcond
    unfold updateDomOps
    refine List.mem_append.mpr (Or.inl (List.mem_append.mpr (Or.inr ?_)))
    refine List.mem_map.mpr ⟨(k, v), List.mem_filter.mpr ⟨hmem, ?_⟩, rfl⟩
    rcases hcond with hgone | hneq
    · simp [hev, hgone]
    · have hpv : getV prev k = some v := getV_of_mem prev k v hp hmem
      simp only [Bool.and_eq_true, hev, true_and, Bool.or_eq_true, isNewB,
        decide_eq_true_eq, hpv]
      right
      exact fun he => hneq he.symm
  · intro k v hmem hev hnew
    have hnx : getV next k = some v := getV_of_mem next k v hn hmem
    unfold updateDomOps
    refine List.mem_append.mpr (Or.inr ?_)
    refine List.mem_map.mpr ⟨(k, v), List.mem_filter.mpr ⟨hmem, ?_⟩, rfl⟩
    simp only [Bool.and_eq_true, hev, true_and, isNewB, decide_eq_true_eq, hnx]
    exact hnew
  · refine ⟨((prev.filter (fun p => isProperty p.1 && isGoneB next p.1)).map
        (fun p => PropOp.set p.1 (Val.str ""))
      ++ (next.filter (fun p => isProperty p.1 && isNewB prev next p.1)).map
        (fun p => PropOp.set p.1 p.2))
      ++ (prev.filter (fun p => isEvent p.1 && (!(hasKey next p.1) || isNewB prev next p.1))).map
        (fun p => PropOp.removeL (evType p.1) p.2),
      (next.filter (fun p => isEvent p.1 && isNewB prev next p.1)).map
        (fun p => PropOp.addL (evType p.1) p.2), ?_, ?_, ?_⟩
    · rfl
    · intro op hop
      rcases List.mem_append.mp hop with h12 | h3
      · rcases List.mem_append.mp h12 with h1 | h2
        · rcases List.mem_map.mp h1 with ⟨p, _, rfl⟩
          rfl
        · rcases List.mem_map.mp h2 with ⟨p, _, rfl⟩
          rfl
      · rcases List.mem_map.mp h3 with ⟨p, _, rfl⟩
        rfl
    · intro op hop
      rcases List.mem_map.mp hop with ⟨p, _, rfl⟩
      rfl

/-- Witness for claim C7: a changed plain property is set to the new
value. -/
theorem updateDom_diff_rules_witness :
    PropOp.set "title" (Val.str "b") ∈
      updateDomOps [("title", Val.str "a"), ("onClick", Val.fn 1)]
        [("title", Val.str "b"), ("onClick", Val.fn 2)] :=
  (updateDom_diff_rules _ _ (by decide) (by decide)).2.1 "title" (Val.str "b")
    (by decide) (by decide) (by decide)

/-- Claim C10: every plain-property write issued by the property-diff
operation targets a key that is neither the children entry nor
listener-shaped and that appears in the previous or next property set; the
children entry and listener-shaped names are never assigned as plain
properties, and keys absent from both sets are untouched. -/
theorem updateDom_write_confinement (prev next : PropMap) (k : String) (v : Val)
    (h : PropOp.set k v ∈ updateDomOps prev next) :
    isProperty k = true ∧ (hasKey prev k = true ∨ hasKey next k = true) := by
  unfold updateDomOps at h
  rcases List.mem_append.mp h with h123 | h4
  · rcases List.mem_append.mp h123 with h12 | h3
    · rcases List.mem_append.mp h12 with h1 | h2
      · rcases List.mem_map.mp h1 with ⟨p, hpf, heq⟩
        obtain ⟨hpm, hpred⟩ := List.mem_filter.mp hpf
        obtain ⟨rfl, rfl⟩ : p.1 = k ∧ Val.str "" = v := by
          simpa using heq
        rw [Bool.and_eq_true] at hpred
        exact ⟨hpred.1, Or.inl (hasKey_of_mem prev p.1 p.2 hpm)⟩
      · rcases List.mem_map.mp h2 with ⟨p, hpf, heq⟩
        obtain ⟨hpm, hpred⟩ := List.mem_filter.mp hpf
        obtain ⟨rfl, rfl⟩ : p.1 = k ∧ p.2 = v := by
          simpa using heq
        rw [Bool.and_eq_true] at hpred
        exact ⟨hpred.1, Or.inr (hasKey_of_mem next p.1 p.2 hpm)⟩
    · rcases List.mem_map.mp h3 with ⟨p, _, heq⟩
      simp at heq
  · rcases List.mem_map.mp h4 with ⟨p, _, heq⟩
    simp at heq

/-- Witness for claim C10 at a concrete property set. -/
theorem updateDom_write_confinement_witness :
    isProperty "title" = true ∧
      (hasKey [] "title" = true ∨ hasKey [("title", Val.str "x")] "title" = true) :=
  updateDom_write_confinement [] [("title", Val.str "x")] "title" (Val.str "x")
    (by decide)

/-- Claim C5, counterexample: on a mount pass over root > div > text, after
two units of work the pass's reconciliation is not finished (a next unit
remains), yet render-target calls have already been issued —
`updateHostComponent` eagerly creates and pre-populates the div's dom handle
during the render phase (src/didact.js lines 345-350, 63-71). -/
theorem eager_createDom_cex :
    (runPass c5Store (some 0) 2).ops ≠ [] ∧ (runPass c5Store (some 0) 2).next ≠ none := by
  decide

/-- Helper: every diff operation is a set, a listener removal, or a listener
addition. -/
theorem updateDomOps_shape (prev next : PropMap) (op : PropOp)
    (h : op ∈ updateDomOps prev next) :
    isAddL op = false ∨ isRemoveL op = false := by
  unfold updateDomOps at h
  rcases List.mem_append.mp h with h123 | h4
  · rcases List.mem_append.mp h123 with h12 | h3
    · rcases List.mem_append.mp h12 with h1 | h2
      · rcases List.mem_map.mp h1 with ⟨p, _, rfl⟩
        exact Or.inl rfl
      · rcases List.mem_map.mp h2 with ⟨p, _, rfl⟩
        exact Or.inl rfl
    · rcases List.mem_map.mp h3 with ⟨p, _, rfl⟩
      exact Or.inl rfl
  · rcases List.mem_map.mp h4 with ⟨p, _, rfl⟩
    exact Or.inr rfl

/-- Helper: attaching a property operation to a handle never yields an
attach/detach call and targets exactly that handle. -/
theorem opAt_not_attach (h0 : Nat) (p : PropOp) :
    isAttachDetach (opAt h0 p) = false ∧ opHandle (opAt h0 p) = h0 := by
  cases p <;> exact ⟨rfl, rfl⟩

/-- Helper: the calls issued by `createDom` never attach or detach children
and all target the freshly created handle. -/
theorem createDomOps_confined (k : NodeKind) (attrs : PropMap) (h0 : Nat) :
    ∀ op ∈ createDomOps k attrs h0, isAttachDetach op = false ∧ opHandle op = h0 := by
  intro op hop
  unfold createDomOps at hop
  rcases List.mem_append.mp hop with h1 | h2
  · cases k <;> simp only [List.mem_singleton] at h1 <;> subst h1 <;> exact ⟨rfl, rfl⟩
  · rcases List.mem_map.mp h2 with ⟨p, _, rfl⟩
    exact opAt_not_attach h0 p

/-- Helper: reconciling children allocates no render-target handles. -/
theorem placeKids_nextDom (st : Store) (i : Nat) (f : SFiber) :
    (placeKids st i f).nextDom = st.nextDom := rfl

/-- Helper: one unit of work only issues calls on the handle it freshly
allocates, and never attach/detach calls. -/
theorem stepUnit_ops_confined (st : Store) (i : Nat) :
    ∀ op ∈ (stepUnit st i).2, isAttachDetach op = false ∧ opHandle op = st.nextDom := by
  intro op hop
  unfold stepUnit at hop
  split at hop
  · simp at hop
  · split at hop
    · simp at hop
    · split at hop
      · simp at hop
      · exact createDomOps_confined _ _ _ op hop

/-- Helper: the handle counter never decreases across a unit of work. -/
theorem stepUnit_nextDom (st : Store) (i : Nat) :
    st.nextDom ≤ (stepUnit st i).1.nextDom := by
  unfold stepUnit
  split
  · exact Nat.le_refl _
  · split
    · exact Nat.le_refl _
    · split
      · rw [placeKids_nextDom]
      · rw [placeKids_nextDom]
        exact Nat.le_succ _

/-- Claim C5, amended: during the render (reconciliation) phase of a pass,
before commit, the only render-target calls issued are the creation and
pre-population (property and listener setup) of handles freshly allocated
during that same pass — no attach or detach call occurs, and no call targets
a handle that existed before the pass started, so nothing attached to the
visible tree is mutated before commit. -/
theorem reconcile_phase_op_confinement (fuel : Nat) :
    ∀ (st : Store) (cur : Option Nat) (op : DomOp),
      op ∈ (runPass st cur fuel).ops →
      isAttachDetach op = false ∧ st.nextDom ≤ opHandle op := by
  induction fuel with
  | zero =>
    intro st cur op hop
    simp [runPass] at hop
  | succ n ih =>
    intro st cur op hop
    cases cur with
    | none => simp [runPass] at hop
    | some i =>
      simp only [runPass] at hop
      rcases List.mem_append.mp hop with h1 | h2
      · have hc := stepUnit_ops_confined st i op h1
        exact ⟨hc.1, Nat.le_of_eq hc.2.symm⟩
      · have hc := ih (stepUnit st i).1 _ op h2
        exact ⟨hc.1, Nat.le_trans (stepUnit_nextDom st i) hc.2⟩

/-- Witness for the amended claim C5 at the concrete mount pass. -/
theorem reconcile_phase_op_confinement_witness :
    isAttachDetach (DomOp.createElement "div" 0) = false ∧
      (0 : Nat) ≤ opHandle (DomOp.createElement "div" 0) :=
  reconcile_phase_op_confinement 2 c5Store (some 0) (DomOp.createElement "div" 0)
    (by decide)
